import Mathlib

/-!
Verification development for the gitignore_parser repository
(src/gitignore_parser.py).

The embedding models Python strings as lists of characters.  The regex
STRINGS that the source builds out of fixed fragments are modelled as
lists of an inductive fragment type: each fragment constructor stands for
exactly one of the fragment strings the source concatenates
(QUESTION_MARK_REGEX, STAR_REGEX, STAR_STAR_REGEX, the literal pieces
produced by re.escape, the bracket expressions, and the endings
appended in rule_from_pattern and _build_regex).  The combined pattern of
GitignoreMatcher.__init__ is modelled by the inductive Pat, whose
constructors stand for the f-string shapes used there.  Full-match
semantics of the emitted regex dialect (re.fullmatch) is given by an
executable matcher; the dollar inside the negative lookahead also accepts
a trailing newline, as Python's dollar does.
-/

abbrev Str := List Char

def str (s : String) : Str := s.data

/-- Model of the character class of the name_piece group of
GITIGNORE_PATTERN: not a space, slash, asterisk, question mark, opening
or closing square bracket, newline, or backslash. -/
def isNameChar (c : Char) : Bool :=
  !(c = ' ' || c = '/' || c = '*' || c = '?' || c = '[' || c = ']' || c = '\n' || c = '\\')

/-- Model of the spaces group: a run of regex whitespace.  We model the
ASCII whitespace characters matched by Python's backslash-s. -/
def isSpaceChar (c : Char) : Bool :=
  c = ' ' || c = '\t' || c = '\n' || c = '\r' || c = '\x0b' || c = '\x0c'

inductive Token where
  | separator
  | starStar
  | star
  | questionMark
  | bracket (s : Str)
  | escapedChar (c : Char)
  | namePiece (s : Str)
  | spaces (s : Str)
deriving Repr, DecidableEq

inductive ScanError where
  /-- error_stars group: 3 or more asterisks; carries match.start() and
  the length of the star run, for the caret in the diagnostic. -/
  | errorStars (start len : Nat)
  /-- catch-all error group. -/
  | catchAll (start : Nat)
deriving Repr, DecidableEq

/-- Scan of the content of a bracket_expression token.  The regex group
is an opening bracket, then a nonempty greedy sequence of
(escaped pair | any non-backslash character), then a closing bracket;
backtracking makes the token extend to the largest boundary of that
deterministic unit scan at which a closing bracket follows.  Returns the
length of the largest feasible content. -/
def brkScan : Str → Nat → Option Nat → Option Nat
  | s, j, best0 =>
    let best := if 1 ≤ j ∧ s.head? = some ']' then some j else best0
    match s with
    | [] => best
    | ['\\'] => best
    | '\\' :: _ :: t => brkScan t (j + 2) best
    | _ :: t => brkScan t (j + 1) best

/-- The tokenizer: models GITIGNORE_PATTERN.finditer over the pattern
starting at pos (pos is 1 for a negated pattern).  The alternation is
tried in the priority order of the source regex at every scan position;
prev is the character before the scan position, for the negative
lookbehind of the star groups.  Scanning stops at the first error token,
as rule_from_pattern returns as soon as one is dispatched. -/
def scanAux : Nat → Str → Nat → Option Char → Except ScanError (List Token)
  | 0, _, _, _ => .ok []
  | _ + 1, [], _, _ => .ok []
  | fuel + 1, c :: rest, pos, prev =>
    if c = '/' then
      (scanAux fuel rest (pos + 1) (some '/')).map (Token.separator :: ·)
    else if c = '*' then
      let k := 1 + (rest.takeWhile (· = '*')).length
      if 3 ≤ k then .error (.errorStars pos k)
      else if prev = some '*' then .error (.catchAll pos)
      else if k = 2 then
        (scanAux fuel (rest.drop 1) (pos + 2) (some '*')).map (Token.starStar :: ·)
      else
        (scanAux fuel rest (pos + 1) (some '*')).map (Token.star :: ·)
    else if c = '?' then
      (scanAux fuel rest (pos + 1) (some '?')).map (Token.questionMark :: ·)
    else if c = '[' then
      match brkScan rest 0 none with
      | some j =>
          let tok : Str := '[' :: (rest.take j ++ [']'])
          (scanAux fuel (rest.drop (j + 1)) (pos + j + 2) (some ']')).map
            (Token.bracket tok :: ·)
      | none => .error (.catchAll pos)
    else if c = '\\' then
      match rest with
      | d :: t =>
          if d = '\n' then .error (.catchAll pos)
          else (scanAux fuel t (pos + 2) (some d)).map (Token.escapedChar d :: ·)
      | [] => .error (.catchAll pos)
    else if isNameChar c then
      let run := (c :: rest).takeWhile isNameChar
      (scanAux fuel ((c :: rest).drop run.length) (pos + run.length) run.getLast?).map
        (Token.namePiece run :: ·)
    else if isSpaceChar c then
      let run := (c :: rest).takeWhile isSpaceChar
      (scanAux fuel ((c :: rest).drop run.length) (pos + run.length) run.getLast?).map
        (Token.spaces run :: ·)
    else .error (.catchAll pos)

/-- One regex fragment, i.e. one element of the Python list named parts.
Each constructor denotes one of the fragment strings the source builds:
lit s is an escaped literal (or raw buffered whitespace, which the regex
also matches literally), qmark is QUESTION_MARK_REGEX, star is
STAR_REGEX, starStar is STAR_STAR_REGEX, brk is a bracket expression
token after unescaping, segs true / segs false are the two collapsed
star-star-slash fragments (with and without the trailing question mark),
sepAny is the directory-only file-form ending slash-dot-star, and
optSepAny is the optional contents ending. -/
inductive Frag where
  | lit (s : Str)
  | qmark
  | star
  | starStar
  | brk (s : Str)
  | segs (opt : Bool)
  | sepAny
  | optSepAny
deriving Repr, DecidableEq

structure IgnoreRule where
  pattern : Str
  source : Str × Nat
  regex : List Frag
  dir_only_regex : List Frag
  negation : Bool
  directory_only : Bool
deriving Repr, DecidableEq

/-- The diagnostic emitted through logging.error when a line is skipped
as malformed: origin and line number (the source tuple), the offending
pattern text, and, only for the error_stars case, the caret span
(start column, width). -/
structure Diag where
  origin : Str
  lineNo : Nat
  patternText : Str
  caret : Option (Nat × Nat)
deriving Repr, DecidableEq

/-- Outcome of rule_from_pattern with the logging effect made explicit:
a rule, a silent skip (blank line, comment, whitespace-only or bare
slash pattern), or a skip with an emitted diagnostic. -/
inductive CompileResult where
  | rule (r : IgnoreRule)
  | skip
  | errorDiag (d : Diag)
deriving Repr, DecidableEq

/-- Model of ESCAPED_CHAR_PATTERN.sub over a bracket expression: each
escaped pair keeps its backslash only when the escaped character is a
backslash, dash or caret; otherwise the backslash is dropped.  A
backslash before a newline is not an escaped pair (the dot of the sub
pattern does not match a newline) and is left in place. -/
def bracketSub : Str → Str
  | [] => []
  | '\\' :: c :: rest =>
      if c = '\n' then '\\' :: bracketSub (c :: rest)
      else if c = '\\' || c = '-' || c = '^' then '\\' :: c :: bracketSub rest
      else c :: bracketSub rest
  | c :: rest => c :: bracketSub rest

/-- Model of the rewrite of a leading bang into a caret inside a bracket
expression. -/
def bangToCaret (s : Str) : Str :=
  match s with
  | '[' :: '!' :: rest => '[' :: '^' :: rest
  | _ => s

/-- The state of the token loop of rule_from_pattern: the parts list
(without the initial empty-string placeholder, which only pads the
Python list), the buffered trailing whitespace, the index of the first
separator token, and the running enumerate index (decremented on a
spaces token). -/
structure LoopState where
  parts : List Frag
  pendingSpaces : Str
  firstSepIndex : Nat
  index : Nat
deriving Repr, DecidableEq

/-- One iteration of the token loop of rule_from_pattern. -/
def stepToken (negation : Bool) (st : LoopState) (i : Nat) (t : Token) : LoopState :=
  let st :=
    if st.pendingSpaces ≠ [] then
      { st with parts := st.parts ++ [Frag.lit st.pendingSpaces], pendingSpaces := [] }
    else st
  match t with
  | .separator =>
      let fsi := if st.firstSepIndex = 0 then i else st.firstSepIndex
      if st.parts.getLast? = some Frag.starStar then
        { st with parts := st.parts.dropLast ++ [Frag.segs (!negation)],
                  firstSepIndex := fsi, index := i }
      else
        { st with parts := st.parts ++ [Frag.lit ['/']],
                  firstSepIndex := fsi, index := i }
  | .starStar => { st with parts := st.parts ++ [Frag.starStar], index := i }
  | .star => { st with parts := st.parts ++ [Frag.star], index := i }
  | .questionMark => { st with parts := st.parts ++ [Frag.qmark], index := i }
  | .bracket s =>
      { st with parts := st.parts ++ [Frag.brk (bangToCaret (bracketSub s))], index := i }
  | .escapedChar c => { st with parts := st.parts ++ [Frag.lit [c]], index := i }
  | .namePiece s => { st with parts := st.parts ++ [Frag.lit s], index := i }
  | .spaces s => { st with pendingSpaces := s, index := i - 1 }

def runLoop (negation : Bool) : List Token → Nat → LoopState → LoopState
  | [], _, st => st
  | t :: ts, i, st => runLoop negation ts (i + 1) (stepToken negation st i t)

/-- Models the single use of the base path, in _build_regex: a trailing
slash is dropped, the rest is escaped and matched literally. -/
def stripSlash (b : Str) : Str :=
  if b.getLast? = some '/' then b.dropLast else b

/-- Model of _build_regex.  The anchor is a slash when anchored,
otherwise a slash followed by the optional any-segments fragment; a
leading slash of the first part is stripped, being handled by the
anchor. -/
def buildRegex (basePath : Str) (parts : List Frag) (dirOnlyEnding : Option Frag)
    (anchored : Bool) : List Frag × List Frag :=
  let base := stripSlash basePath
  let anchorFrags : List Frag :=
    if anchored then [Frag.lit ['/']] else [Frag.lit ['/'], Frag.segs true]
  let parts : List Frag :=
    match parts with
    | Frag.lit ('/' :: s) :: rest => Frag.lit s :: rest
    | Frag.sepAny :: rest => Frag.starStar :: rest
    | _ => parts
  let stem := Frag.lit base :: (anchorFrags ++ parts.dropLast)
  let regex := stem ++ [parts.getLastD (Frag.lit [])]
  match dirOnlyEnding with
  | some e => (regex, stem ++ [e])
  | none => (regex, regex)

/-- Model of rule_from_pattern, with the logging effect explicit in the
result type. -/
def compilePattern (pattern : Str) (basePath : Str) (source : Str × Nat) :
    CompileResult :=
  if pattern = [] ∨ pattern.head? = some '#' then .skip else
  let negation := pattern.head? = some '!'
  let startPos := if negation then 1 else 0
  match scanAux (pattern.length + 1) (pattern.drop startPos) startPos
      (if negation then some '!' else none) with
  | .error (.errorStars start len) =>
      .errorDiag ⟨source.1, source.2, pattern, some (start, len)⟩
  | .error (.catchAll _) =>
      .errorDiag ⟨source.1, source.2, pattern, none⟩
  | .ok tokens =>
    let st := runLoop negation tokens 1 ⟨[], [], 0, 0⟩
    let parts := st.parts
    if parts = [] ∨ parts = [Frag.lit ['/']] then .skip else
    let anchored := st.firstSepIndex ≠ 0 && st.firstSepIndex ≠ st.index
    let directoryOnly := parts.getLast? = some (Frag.lit ['/'])
    let expansion : List Frag × Option Frag :=
      if parts.getLast? = some Frag.star then (parts ++ [Frag.optSepAny], none)
      else if directoryOnly then (parts.dropLast ++ [Frag.sepAny], some Frag.optSepAny)
      else (parts ++ [Frag.optSepAny], none)
    let rx := buildRegex basePath expansion.1 expansion.2 anchored
    .rule ⟨pattern, source, rx.1, rx.2, negation, directoryOnly⟩

/-- rule_from_pattern as the callers see it: the rule, or None. -/
def ruleFromPattern (pattern basePath : Str) (source : Str × Nat) :
    Option IgnoreRule :=
  match compilePattern pattern basePath source with
  | .rule r => some r
  | _ => none

/-- Model of _rule_generator: enumerate the lines starting at 1, compile
each, and keep the rules. -/
def ruleGeneratorAux (baseDir source : Str) : Nat → List Str → List IgnoreRule
  | _, [] => []
  | n, l :: ls =>
    match ruleFromPattern l baseDir (source, n) with
    | some r => r :: ruleGeneratorAux baseDir source (n + 1) ls
    | none => ruleGeneratorAux baseDir source (n + 1) ls

/-- The combined pattern strings built in GitignoreMatcher.__init__,
as an inductive over the f-string shapes used there: empty is the
initial empty string, rule is a first (or only) rule regex, alt is the
alternation shape, and excl is the negation shape with the negative
lookahead anchored by a dollar around the wrapped running pattern. -/
inductive Pat where
  | empty
  | rule (fs : List Frag)
  | alt (p : Pat) (fs : List Frag)
  | excl (fs : List Frag) (p : Pat)
deriving Repr, DecidableEq

/-- Python truthiness of the running pattern string: only the initial
empty string is falsy (every rule regex starts with the escaped base
path and an anchor beginning with a slash, so it is never empty). -/
def patTruthy : Pat → Bool
  | .empty => false
  | _ => true

/-- One iteration of the rule loop of GitignoreMatcher.__init__.  In the
negation branch the source wraps, for the directory-only accumulator,
the just-reassigned file-form pattern (the local variable named pattern)
rather than the directory-only accumulator, and this model reproduces
that. -/
def combineStep (acc : Pat × Pat × Bool) (rule : IgnoreRule) : Pat × Pat × Bool :=
  let pattern := acc.1
  let dirOnlyPattern := acc.2.1
  let dirOnlyRules := acc.2.2 || rule.directory_only
  if rule.negation then
    if patTruthy pattern then
      let pattern' := Pat.excl rule.regex pattern
      (pattern', Pat.excl rule.dir_only_regex pattern', dirOnlyRules)
    else (pattern, dirOnlyPattern, dirOnlyRules)
  else if patTruthy pattern then
    (Pat.alt pattern rule.regex, Pat.alt dirOnlyPattern rule.dir_only_regex, dirOnlyRules)
  else (Pat.rule rule.regex, Pat.rule rule.dir_only_regex, dirOnlyRules)

def combineRules (rules : List IgnoreRule) : Pat × Pat × Bool :=
  rules.foldl combineStep (Pat.empty, Pat.empty, false)

structure GitignoreMatcher where
  regex : Pat
  dir_only_regex : Pat
  honor_directory_only : Bool
deriving Repr, DecidableEq

def GitignoreMatcher.make (rules : List IgnoreRule) (honorDirectoryOnly : Bool) :
    GitignoreMatcher :=
  ⟨(combineRules rules).1, (combineRules rules).2.1,
   honorDirectoryOnly && (combineRules rules).2.2⟩

/-- Model of parse_gitignore_lines. -/
def parseGitignoreLines (lines : List Str) (baseDir : Str) (source : Str)
    (honorDirectoryOnly : Bool) : GitignoreMatcher :=
  GitignoreMatcher.make (ruleGeneratorAux baseDir source 1 lines) honorDirectoryOnly

/-- All suffixes of the input reachable by deleting a possibly empty
run of characters satisfying p from the front; used by the matcher for
the greedy fragments. -/
def dropsWhile (p : Char → Bool) : Str → List Str
  | [] => [[]]
  | c :: cs => (c :: cs) :: (if p c then dropsWhile p cs else [])

def dropPref : Str → Str → Option Str
  | [], cs => some cs
  | _ :: _, [] => none
  | p :: ps, c :: cs => if p = c then dropPref ps cs else none

/-- Units of a character class: the flag records whether the character
was escaped inside the class (an escaped dash is a literal dash, not a
range operator). -/
def parseUnits : Str → Bool → Option (List (Bool × Char) × Str)
  | [], _ => none
  | ']' :: rest, false => some ([], rest)
  | '\\' :: c :: rest, _ =>
      (parseUnits rest false).map (fun ut => ((true, c) :: ut.1, ut.2))
  | ['\\'], _ => none
  | c :: rest, _ =>
      (parseUnits rest false).map (fun ut => ((false, c) :: ut.1, ut.2))

inductive ClsItem where
  | single (c : Char)
  | range (a b : Char)
deriving Repr, DecidableEq

/-- Interpret class units: an unescaped dash between two units denotes a
codepoint range, anything else is a literal. -/
def clsItems : List (Bool × Char) → List ClsItem
  | u1 :: (false, '-') :: u2 :: rest => ClsItem.range u1.2 u2.2 :: clsItems rest
  | u :: rest => ClsItem.single u.2 :: clsItems rest
  | [] => []

def clsMatch (neg : Bool) (items : List ClsItem) (c : Char) : Bool :=
  let inSet := items.any fun it =>
    match it with
    | .single d => c = d
    | .range a b => a ≤ c ∧ c ≤ b
  if neg then !inSet else inSet

/-- Decompose a bracket expression token into negation flag, class
units and the trailing raw text after the closing bracket (an
unescaped closing bracket that is not the first class character ends
the class, as in the Python regex dialect). -/
def clsUnitsOf : Str → Option (Bool × List (Bool × Char) × Str)
  | '[' :: rest =>
      match rest with
      | '^' :: r => (parseUnits r true).map (fun ut => (true, ut.1, ut.2))
      | r => (parseUnits r true).map (fun ut => (false, ut.1, ut.2))
  | _ => none

/-- Executable full-match of a fragment sequence against a path, with
the existential-split semantics of backtracking.  The dot of the regex
dialect does not match a newline; a single-wildcard fragment excludes
the slash.  The fuel argument only drives the recursion; every
recursive call shortens the fragment list, so the initial fuel of
length plus one is never exhausted. -/
def matchFragsAux : Nat → List Frag → Str → Bool
  | 0, _, _ => false
  | _ + 1, [], cs => cs.isEmpty
  | fuel + 1, f :: fs, cs =>
    match f with
    | .lit s =>
        match dropPref s cs with
        | some rest => matchFragsAux fuel fs rest
        | none => false
    | .qmark =>
        match cs with
        | c :: rest => (c ≠ '/') && matchFragsAux fuel fs rest
        | [] => false
    | .star => (dropsWhile (fun c => c ≠ '/') cs).any (matchFragsAux fuel fs)
    | .starStar => (dropsWhile (fun c => c ≠ '\n') cs).any (matchFragsAux fuel fs)
    | .brk s =>
        match clsUnitsOf s with
        | none => false
        | some (neg, us, trailing) =>
            match cs with
            | [] => false
            | c :: cs' =>
                clsMatch neg (clsItems us) c &&
                (match dropPref trailing cs' with
                 | some cs'' => matchFragsAux fuel fs cs''
                 | none => false)
    | .segs opt =>
        (opt && matchFragsAux fuel fs cs) ||
        (dropsWhile (fun c => c ≠ '\n') cs).any (fun cs' =>
          match cs' with
          | '/' :: rest => matchFragsAux fuel fs rest
          | _ => false)
    | .sepAny =>
        match cs with
        | '/' :: rest => (dropsWhile (fun c => c ≠ '\n') rest).any (matchFragsAux fuel fs)
        | _ => false
    | .optSepAny =>
        matchFragsAux fuel fs cs ||
        (match cs with
         | '/' :: rest => (dropsWhile (fun c => c ≠ '\n') rest).any (matchFragsAux fuel fs)
         | _ => false)

def matchFrags (fs : List Frag) (cs : Str) : Bool :=
  matchFragsAux (fs.length + 1) fs cs

/-- A rule regex followed by a dollar, as inside the negative lookahead:
Python's dollar matches at the end of the string or just before a
newline at the end of the string. -/
def matchDollar (fs : List Frag) (cs : Str) : Bool :=
  matchFrags fs cs || (cs.getLast? = some '\n' && matchFrags fs cs.dropLast)

/-- Full-match of a combined pattern: an empty pattern matches only the
empty path; alternation matches if either side does; the negation shape
matches when the negated rule regex (with the dollar) does not match
and the wrapped pattern does. -/
def patMatch : Pat → Str → Bool
  | .empty, cs => cs.isEmpty
  | .rule fs, cs => matchFrags fs cs
  | .alt p fs, cs => patMatch p cs || matchFrags fs cs
  | .excl fs p, cs => !matchDollar fs cs && patMatch p cs

/-- Model of GitignoreMatcher._call, with the os.path.isdir filesystem
probe made explicit as an oracle argument. -/
def GitignoreMatcher.call (m : GitignoreMatcher) (isdir : Str → Bool) (path : Str) :
    Bool :=
  if m.honor_directory_only && isdir path then patMatch m.dir_only_regex path
  else patMatch m.regex path

/-! Helper lemmas: the base directory enters compilation only through
stripSlash, inside _build_regex. -/

theorem buildRegex_congr (b1 b2 : Str) (h : stripSlash b1 = stripSlash b2) :
    buildRegex b1 = buildRegex b2 := by
  funext parts e a
  unfold buildRegex
  rw [h]

theorem compilePattern_congr (p : Str) (b1 b2 : Str) (s : Str × Nat)
    (h : stripSlash b1 = stripSlash b2) :
    compilePattern p b1 s = compilePattern p b2 s := by
  unfold compilePattern
  rw [buildRegex_congr b1 b2 h]

theorem ruleFromPattern_congr (p : Str) (b1 b2 : Str) (s : Str × Nat)
    (h : stripSlash b1 = stripSlash b2) :
    ruleFromPattern p b1 s = ruleFromPattern p b2 s := by
  unfold ruleFromPattern
  rw [compilePattern_congr p b1 b2 s h]

theorem ruleGeneratorAux_congr (b1 b2 src : Str) (h : stripSlash b1 = stripSlash b2) :
    ∀ (n : Nat) (lines : List Str),
      ruleGeneratorAux b1 src n lines = ruleGeneratorAux b2 src n lines := by
  intro n lines
  induction lines generalizing n with
  | nil => rfl
  | cons l ls ih =>
    unfold ruleGeneratorAux
    rw [ruleFromPattern_congr l b1 b2 (src, n) h, ih]

theorem stripSlash_append_slash (b : Str) (hb : b.getLast? ≠ some '/') :
    stripSlash (b ++ ['/']) = stripSlash b := by
  unfold stripSlash
  rw [List.getLast?_concat, if_pos rfl, List.dropLast_concat, if_neg hb]

/-! Helper lemmas for rule sets in which every compiled rule is negated:
the combining fold never leaves the empty pattern. -/

theorem combineFold_all_negated (rules : List IgnoreRule)
    (h : ∀ r ∈ rules, r.negation = true) :
    ∀ (d : Bool),
      (rules.foldl combineStep (Pat.empty, Pat.empty, d)).1 = Pat.empty ∧
      (rules.foldl combineStep (Pat.empty, Pat.empty, d)).2.1 = Pat.empty := by
  induction rules with
  | nil => intro d; exact ⟨rfl, rfl⟩
  | cons r rs ih =>
    intro d
    have hr := h r (List.mem_cons_self r rs)
    have hstep : combineStep (Pat.empty, Pat.empty, d) r =
        (Pat.empty, Pat.empty, d || r.directory_only) := by
      simp [combineStep, hr, patTruthy]
    simp only [List.foldl_cons, hstep]
    exact ih (fun x hx => h x (List.mem_cons_of_mem r hx)) _

theorem ruleGeneratorAux_all_negated (b src : Str) (lines : List Str)
    (h : ∀ l ∈ lines, ∀ (n : Nat) (r : IgnoreRule),
      ruleFromPattern l b (src, n) = some r → r.negation = true) :
    ∀ (n : Nat), ∀ r ∈ ruleGeneratorAux b src n lines, r.negation = true := by
  induction lines with
  | nil => intro n r hr; simp [ruleGeneratorAux] at hr
  | cons l ls ih =>
    intro n r hr
    unfold ruleGeneratorAux at hr
    cases hc : ruleFromPattern l b (src, n) with
    | some r0 =>
      rw [hc] at hr
      rcases List.mem_cons.mp hr with h1 | h2
      · subst h1
        exact h l (List.mem_cons_self l ls) n r hc
      · exact ih (fun x hx => h x (List.mem_cons_of_mem l hx)) (n + 1) r h2
    | none =>
      rw [hc] at hr
      exact ih (fun x hx => h x (List.mem_cons_of_mem l hx)) (n + 1) r hr

/-- Follows the words of the spec (section 4.3 and claim C1) for
comparison: the same negation-aware fold applied over the rules'
directory-form expressions alone, with the directory-form accumulator
wrapped and extended independently of the file-form one. -/
def combineDirIndependent (rules : List IgnoreRule) : Pat :=
  rules.foldl
    (fun dp rule =>
      if rule.negation then
        if patTruthy dp then Pat.excl rule.dir_only_regex dp else dp
      else if patTruthy dp then Pat.alt dp rule.dir_only_regex
      else Pat.rule rule.dir_only_regex)
    Pat.empty

/-- C1: the claim says that on a negated rule the directory-form
accumulator is wrapped identically and independently of the file-form
one, so the combined directory-form expression equals the independent
fold over the directory-form expressions alone.  The code instead wraps
the just-reassigned file-form pattern: for the rules built from the
lines foo-slash and bang-x over base slash-b, the combined
directory-form pattern differs from the independent fold, and on the
directory path slash-b-slash-foo the code answers false while the
independent fold answers true. -/
theorem C1_dir_accumulator_not_independent :
    (combineRules (ruleGeneratorAux (str "/b") (str "") 1 [str "foo/", str "!x"])).2.1 ≠
      combineDirIndependent (ruleGeneratorAux (str "/b") (str "") 1 [str "foo/", str "!x"]) ∧
    (parseGitignoreLines [str "foo/", str "!x"] (str "/b") (str "") true).call
      (fun _ => true) (str "/b/foo") = false ∧
    patMatch (combineDirIndependent (ruleGeneratorAux (str "/b") (str "") 1
      [str "foo/", str "!x"])) (str "/b/foo") = true := by
  refine ⟨by decide, by decide, by decide⟩

/-- C2: the claim says that, with directory-aware matching enabled and
no explicit directory hint, the directory decision comes solely from a
trailing separator in the path string, with no filesystem probe.  The
query method instead probes the filesystem through os.path.isdir: on
the same hint-free path string slash-b-slash-dot-venv, the single rule
dot-venv-slash answers true when the probe reports a directory and
false when it does not, so the decision is not a function of the rule
set and path string alone. -/
theorem C2_probe_dependence_counterexample :
    (parseGitignoreLines [str ".venv/"] (str "/b") (str "") true).call
      (fun _ => true) (str "/b/.venv") = true ∧
    (parseGitignoreLines [str ".venv/"] (str "/b") (str "") true).call
      (fun _ => false) (str "/b/.venv") = false := by
  refine ⟨by decide, by decide⟩

/-- C2 (amended): with directory-aware matching enabled the directory
decision comes from the os.path.isdir filesystem probe at query time,
not from a trailing separator; the decision is a pure function of the
rule set, the path string, and the probe's value at that path, and with
directory-aware matching disabled it does not depend on the probe at
all. -/
theorem C2_amended_probe_value_purity :
    (∀ (m : GitignoreMatcher) (o1 o2 : Str → Bool) (p : Str),
      o1 p = o2 p → m.call o1 p = m.call o2 p) ∧
    (∀ (rules : List IgnoreRule) (o1 o2 : Str → Bool) (p : Str),
      (GitignoreMatcher.make rules false).call o1 p =
        (GitignoreMatcher.make rules false).call o2 p) := by
  constructor
  · intro m o1 o2 p hp
    unfold GitignoreMatcher.call
    rw [hp]
  · intro rules o1 o2 p
    unfold GitignoreMatcher.call GitignoreMatcher.make
    simp

theorem C2_amended_probe_value_purity_witness :
    (parseGitignoreLines [str ".venv/"] (str "/b") (str "") true).call
      (fun _ => true) (str "/b/.venv") =
    (parseGitignoreLines [str ".venv/"] (str "/b") (str "") true).call
      (fun s => decide (s = str "/b/.venv")) (str "/b/.venv") :=
  C2_amended_probe_value_purity.1 _ _ _ _ (by decide)

/-- C3: the claim says construction with a non-absolute base directory
fails immediately with a precondition-violation error and produces no
rule set.  No such check exists: with the relative base rel the rule
set is fully produced and functions at match time, ignoring the path
rel-slash-foo. -/
theorem C3_relative_base_counterexample :
    (parseGitignoreLines [str "foo"] (str "rel") (str "") false).call
      (fun _ => false) (str "rel/foo") = true := by decide

/-- C3 (amended): construction performs no absoluteness check on the
base directory and cannot fail because of it; whether a line compiles
to a rule is independent of the base directory (and of the source
label), which only enters the compiled expressions as a literal
prefix, so any base, absolute or not, yields the complete rule set. -/
theorem C3_amended_no_absoluteness_check :
    ∀ (p : Str) (b1 b2 : Str) (s1 s2 : Str × Nat),
      (ruleFromPattern p b1 s1).isSome = (ruleFromPattern p b2 s2).isSome := by
  intro p b1 b2 s1 s2
  unfold ruleFromPattern compilePattern
  by_cases h1 : p = [] ∨ p.head? = some '#'
  · simp [h1]
  · simp only [h1, if_false]
    generalize (if p.head? = some '!' then (1:Nat) else 0) = sp
    generalize (if p.head? = some '!' then (some '!') else none) = pv
    cases hS : scanAux (p.length + 1) (p.drop sp) sp pv with
    | error e => cases e <;> simp [hS]
    | ok tokens =>
      simp only [hS]
      by_cases h3 : (runLoop (decide (p.head? = some '!')) tokens 1 ⟨[], [], 0, 0⟩).parts = []
        ∨ (runLoop (decide (p.head? = some '!')) tokens 1 ⟨[], [], 0, 0⟩).parts = [Frag.lit ['/']]
      · simp [h3]
      · simp [h3]

/-- All ways to split a path into a front part and a back part. -/
def splits : Str → List (Str × Str)
  | [] => [([], [])]
  | c :: cs => ([], c :: cs) :: (splits cs).map (fun pr => (c :: pr.1, pr.2))

/-- Follows the claim's words (C4 and spec section 4.2 item 7) for
comparison: a directory-only rule's file-form said to end with a
separator followed by at least one more character, after the stem
built from the rest of the rule. -/
def claimDirOnlyFileMatch (stem : List Frag) (cs : Str) : Bool :=
  (splits cs).any fun pr =>
    matchFrags stem pr.1 && pr.2.head? = some '/' && decide (2 ≤ pr.2.length)

/-- C4: the claim says the compiled file-form of a directory-only
pattern ends with separator-followed-by-at-least-one-more-character.
The actual ending is slash-dot-star, separator followed by anything
including nothing: the rule dot-venv-slash, matched as file form,
ignores the path slash-b-slash-dot-venv-slash even though no character
follows the final separator, which the claimed ending would reject. -/
theorem C4_ending_counterexample :
    Option.map IgnoreRule.regex (ruleFromPattern (str ".venv/") (str "/b") (str "", 1)) =
      some [Frag.lit (str "/b"), Frag.lit ['/'], Frag.segs true,
        Frag.lit (str ".venv"), Frag.sepAny] ∧
    (parseGitignoreLines [str ".venv/"] (str "/b") (str "") false).call
      (fun _ => false) (str "/b/.venv/") = true ∧
    claimDirOnlyFileMatch [Frag.lit (str "/b"), Frag.lit ['/'], Frag.segs true,
      Frag.lit (str ".venv")] (str "/b/.venv/") = false := by
  refine ⟨by decide, by decide, by decide⟩

/-- C4 (amended): for a directory-only pattern the compiled file-form
ends with separator-followed-by-anything (slash-dot-star), which still
never matches the bare un-suffixed name treated as a file: for the
single rule dot-venv-slash, the bare path with the probe reporting a
file is not ignored (with or without directory-aware matching), the
bare path with the probe reporting a directory is ignored, and a file
below the directory is ignored. -/
theorem C4_amended_directory_only_exclusivity :
    Option.map IgnoreRule.regex (ruleFromPattern (str ".venv/") (str "/b") (str "", 1)) =
      some [Frag.lit (str "/b"), Frag.lit ['/'], Frag.segs true,
        Frag.lit (str ".venv"), Frag.sepAny] ∧
    (parseGitignoreLines [str ".venv/"] (str "/b") (str "") true).call
      (fun _ => false) (str "/b/.venv") = false ∧
    (parseGitignoreLines [str ".venv/"] (str "/b") (str "") false).call
      (fun _ => false) (str "/b/.venv") = false ∧
    (parseGitignoreLines [str ".venv/"] (str "/b") (str "") true).call
      (fun _ => true) (str "/b/.venv") = true ∧
    (parseGitignoreLines [str ".venv/"] (str "/b") (str "") true).call
      (fun _ => false) (str "/b/.venv/file.txt") = true := by
  refine ⟨by decide, by decide, by decide, by decide, by decide⟩

/-- C5: the claim says every malformed line, including any unmatched
remainder, gets a diagnostic with a caret span under the bad token.
Only the three-or-more-asterisks case carries a caret: the unmatched
remainder in the line foo-brackets-dot-txt is reported with origin,
line number and pattern text but with no caret span. -/
theorem C5_catchall_caret_counterexample :
    compilePattern (str "foo[].txt") (str "/b") (str "x", 1) =
      CompileResult.errorDiag ⟨str "x", 1, str "foo[].txt", none⟩ := by decide

/-- C5 (amended): a line with three or more consecutive asterisks is
skipped with a diagnostic carrying origin, line number, pattern text
and a caret span under the star run; a line with any other unmatched
remainder is skipped with a diagnostic carrying origin, line number and
pattern text but no caret; in both cases no rule is produced and
compilation continues, so the rule set built from the remaining
well-formed lines is still produced and matches. -/
theorem C5_amended_diagnostics_and_continuation :
    compilePattern (str "foo/***/bar") (str "/b") (str "src", 3) =
      CompileResult.errorDiag ⟨str "src", 3, str "foo/***/bar", some (4, 3)⟩ ∧
    compilePattern (str "foo[].txt") (str "/b") (str "src", 7) =
      CompileResult.errorDiag ⟨str "src", 7, str "foo[].txt", none⟩ ∧
    (ruleGeneratorAux (str "/b") (str "") 1 [str "foo/***/bar", str "keep.txt"]).length = 1 ∧
    (parseGitignoreLines [str "foo/***/bar", str "keep.txt"] (str "/b") (str "") false).call
      (fun _ => false) (str "/b/keep.txt") = true := by
  refine ⟨by decide, by decide, by decide, by decide⟩

/-- C6: unescaped whitespace at end of line is discarded while escaped
spaces are kept: the matcher built from the line build-slash followed
by unescaped spaces decides every path exactly as the matcher built
from build-slash, for every base directory, flag and probe; and the
rule from name-backslash-space keeps the trailing space significant,
ignoring the path ending in name-space but not the one ending in
name. -/
theorem C6_trailing_whitespace :
    (∀ (b : Str) (h : Bool) (o : Str → Bool) (p : Str),
      (parseGitignoreLines [str "build/    "] b (str "") h).call o p =
      (parseGitignoreLines [str "build/"] b (str "") h).call o p) ∧
    (parseGitignoreLines [str "name\\ "] (str "/b") (str "") false).call
      (fun _ => false) (str "/b/name ") = true ∧
    (parseGitignoreLines [str "name\\ "] (str "/b") (str "") false).call
      (fun _ => false) (str "/b/name") = false := by
  refine ⟨fun b h o p => rfl, by decide, by decide⟩

/-- C7: a double-wildcard immediately followed by a separator is
collapsed by the separator step of the token loop into a single
zero-or-more-full-path-segments fragment, optional exactly when the
pattern is not negated; the rule foo-starstar-Bar ignores foo-Bar,
foo-x-Bar and foo-x-y-Bar alike, and the negated variant compiles with
the non-optional collapsed fragment. -/
theorem C7_double_wildcard_collapse :
    (∀ (neg : Bool) (ps : List Frag) (fsi idx i : Nat),
      stepToken neg ⟨ps ++ [Frag.starStar], [], fsi, idx⟩ i Token.separator =
        ⟨ps ++ [Frag.segs (!neg)], [], (if fsi = 0 then i else fsi), i⟩) ∧
    Option.map IgnoreRule.regex
        (ruleFromPattern (str "foo/**/Bar") (str "/b") (str "", 1)) =
      some [Frag.lit (str "/b"), Frag.lit ['/'], Frag.lit (str "foo"), Frag.lit ['/'],
        Frag.segs true, Frag.lit (str "Bar"), Frag.optSepAny] ∧
    Option.map IgnoreRule.regex
        (ruleFromPattern (str "!foo/**/Bar") (str "/b") (str "", 1)) =
      some [Frag.lit (str "/b"), Frag.lit ['/'], Frag.lit (str "foo"), Frag.lit ['/'],
        Frag.segs false, Frag.lit (str "Bar"), Frag.optSepAny] ∧
    (parseGitignoreLines [str "foo/**/Bar"] (str "/b") (str "") false).call
      (fun _ => false) (str "/b/foo/Bar") = true ∧
    (parseGitignoreLines [str "foo/**/Bar"] (str "/b") (str "") false).call
      (fun _ => false) (str "/b/foo/x/Bar") = true ∧
    (parseGitignoreLines [str "foo/**/Bar"] (str "/b") (str "") false).call
      (fun _ => false) (str "/b/foo/x/y/Bar") = true := by
  refine ⟨fun neg ps fsi idx i => by
    simp [stepToken, List.getLast?_concat, List.dropLast_concat],
    by decide, by decide, by decide, by decide, by decide⟩

/-- C8: the single-rule sets built from foo-caret-class-dot-txt and
foo-bang-class-dot-txt decide every path identically, for every base,
flag and probe (the bang form is rewritten to the caret form), and
over the six candidate names exactly foo1, foo2 and foo3 dot txt are
not ignored while foo0, foo4 and foop dot txt are. -/
theorem C8_bracket_negation_equivalence :
    (∀ (b : Str) (h : Bool) (o : Str → Bool) (p : Str),
      (parseGitignoreLines [str "foo[^1-3].txt"] b (str "") h).call o p =
      (parseGitignoreLines [str "foo[!1-3].txt"] b (str "") h).call o p) ∧
    (parseGitignoreLines [str "foo[^1-3].txt"] (str "/b") (str "") false).call
      (fun _ => false) (str "/b/foo0.txt") = true ∧
    (parseGitignoreLines [str "foo[^1-3].txt"] (str "/b") (str "") false).call
      (fun _ => false) (str "/b/foo1.txt") = false ∧
    (parseGitignoreLines [str "foo[^1-3].txt"] (str "/b") (str "") false).call
      (fun _ => false) (str "/b/foo2.txt") = false ∧
    (parseGitignoreLines [str "foo[^1-3].txt"] (str "/b") (str "") false).call
      (fun _ => false) (str "/b/foo3.txt") = false ∧
    (parseGitignoreLines [str "foo[^1-3].txt"] (str "/b") (str "") false).call
      (fun _ => false) (str "/b/foo4.txt") = true ∧
    (parseGitignoreLines [str "foo[^1-3].txt"] (str "/b") (str "") false).call
      (fun _ => false) (str "/b/foop.txt") = true := by
  refine ⟨fun b h o p => rfl,
    by decide, by decide, by decide, by decide, by decide, by decide⟩

/-- C9: appending a single trailing separator to a base directory that
does not already end in one never changes any decision: for every list
of pattern lines, every such base, every flag, probe and path, the two
matchers agree (the trailing separator is stripped before the base is
embedded). -/
theorem C9_base_trailing_slash_irrelevant (lines : List Str) (b src : Str)
    (h : Bool) (o : Str → Bool) (p : Str) (hb : b.getLast? ≠ some '/') :
    (parseGitignoreLines lines (b ++ ['/']) src h).call o p =
    (parseGitignoreLines lines b src h).call o p := by
  have hs : stripSlash (b ++ ['/']) = stripSlash b := stripSlash_append_slash b hb
  unfold parseGitignoreLines
  rw [ruleGeneratorAux_congr (b ++ ['/']) b src hs 1 lines]

theorem C9_base_trailing_slash_irrelevant_witness :
    (parseGitignoreLines [str "foo"] (str "/b" ++ ['/']) (str "") false).call
      (fun _ => false) (str "/b/foo") =
    (parseGitignoreLines [str "foo"] (str "/b") (str "") false).call
      (fun _ => false) (str "/b/foo") :=
  C9_base_trailing_slash_irrelevant [str "foo"] (str "/b") (str "") false
    (fun _ => false) (str "/b/foo") (by decide)

/-- C10: if every line either produces no rule or produces a rule with
the negation flag set, the combined pattern stays the initial empty
string (a negated rule met while the accumulated expression is empty is
skipped), and the matcher ignores no non-empty path. -/
theorem C10_no_positive_rule_ignores_nothing (lines : List Str) (b src : Str)
    (h : Bool) (o : Str → Bool) (p : Str)
    (hneg : ∀ l ∈ lines, ∀ (n : Nat) (r : IgnoreRule),
      ruleFromPattern l b (src, n) = some r → r.negation = true)
    (hp : p ≠ []) :
    (parseGitignoreLines lines b src h).call o p = false := by
  have hr := ruleGeneratorAux_all_negated b src lines hneg 1
  have hc := combineFold_all_negated (ruleGeneratorAux b src 1 lines) hr false
  unfold parseGitignoreLines GitignoreMatcher.make GitignoreMatcher.call combineRules
  cases p with
  | nil => exact absurd rfl hp
  | cons c cs =>
    simp [hc.1, hc.2, patMatch]

theorem C10_no_positive_rule_ignores_nothing_witness :
    (parseGitignoreLines [str "!foo", str "#c", str ""] (str "/b") (str "") false).call
      (fun _ => false) (str "/b/x") = false := by
  apply C10_no_positive_rule_ignores_nothing
  · intro l hl n r hr
    fin_cases hl
    · have hv : Option.map IgnoreRule.negation
          (ruleFromPattern (str "!foo") (str "/b") (str "", n)) = some true := rfl
      rw [hr] at hv
      simpa using hv.symm
    · have hv : ruleFromPattern (str "#c") (str "/b") (str "", n) = none := rfl
      rw [hv] at hr
      cases hr
    · have hv : ruleFromPattern (str "") (str "/b") (str "", n) = none := rfl
      rw [hv] at hr
      cases hr
  · decide
